import Mathlib

/-!
Verification of the ledger-transaction core of the XUMM-App excerpt.

The development shallowly embeds:
* the `Blob` field descriptor (`src/common/libs/ledger/parser/fields/Blob.ts`),
* the amount display derivation of the `AmountText` component
  (`src/components/General/AmountText/AmountText.tsx`),
* the payment build / submit flow of the Send screen
  (`src/screens/Send/SendView.tsx`),
* the NFT amount codec (`XRPLValueToNFT` / `NFTValueToXRPL`), which is imported
  from `@common/utils/amount` and is not part of the excerpt; it is modelled
  from the specification.

JavaScript numbers are embedded as rationals (`ℚ`): every decimal literal the
claims exercise is handled exactly, and the ECMAScript `Number`-to-`String`
conversion is reimplemented for finite-decimal rationals.
-/

/- ===================== JavaScript values and the Blob field ===================== -/

/-- A JavaScript value as seen by a field setter: `undefined`, a string, or any
other value, remembered only through its `typeof` tag. -/
inductive JSValue where
  | undef : JSValue
  | str (s : String) : JSValue
  | other (typeofTag : String) : JSValue
deriving DecidableEq

namespace Blob

/-- `Blob.getter` (Blob.ts, lines 3-7): returns the owning instance's storage
slot for the field. -/
def getter (slot : Option String) : Option String := slot

/-- `Blob.setter` (Blob.ts, lines 8-22): `undefined` clears the slot; a
non-string throws (`Except.error` with the thrown message); any string is
stored unchanged — the hex-format check is only a TODO comment in the source. -/
def setter (_slot : Option String) (value : JSValue) : Except String (Option String) :=
  match value with
  | JSValue.undef => Except.ok none
  | JSValue.str s => Except.ok (some s)
  | JSValue.other t => Except.error ("field required type string, got " ++ t)

end Blob

/-- Character class of hexadecimal digits (case-insensitive). -/
def isHexDigit (c : Char) : Bool :=
  c.isDigit || ('a' ≤ c && c ≤ 'f') || ('A' ≤ c && c ≤ 'F')

/-- The spec's wire constraint for a Blob field, stated from the spec's words
("a string of an even number of hexadecimal characters, case-insensitive") for
comparison with the behaviour of `Blob.setter`. -/
def specHexConstraint (s : String) : Bool :=
  s.length % 2 == 0 && s.toList.all isHexDigit

/- ===================== Kernel-evaluable rational arithmetic ===================== -/

/-- Multiplication on `ℚ` routed through `Rat.divInt` so that it evaluates
inside the kernel; equal to `a * b` (`qMul_eq`). -/
def qMul (a b : ℚ) : ℚ := Rat.divInt (a.num * b.num) ((a.den : ℤ) * (b.den : ℤ))

/-- Division on `ℚ` routed through `Rat.divInt` so that it evaluates inside
the kernel; equal to `a / b` (`qDiv_eq`). -/
def qDiv (a b : ℚ) : ℚ := Rat.divInt (a.num * (b.den : ℤ)) ((a.den : ℤ) * b.num)

theorem qMul_eq (a b : ℚ) : qMul a b = a * b := by
  unfold qMul
  conv_rhs => rw [← Rat.num_divInt_den a, ← Rat.num_divInt_den b, Rat.divInt_mul_divInt']

theorem qDiv_eq (a b : ℚ) : qDiv a b = a / b := by
  unfold qDiv
  exact (Rat.div_def' a b).symm

/- ===================== Decimal-string machinery ===================== -/

/-- Value of a list of decimal digit characters, most significant first. -/
def digitsToNat (l : List Char) : ℕ :=
  l.foldl (fun a c => a * 10 + (c.toNat - 48)) 0

/-- Splits a character list into its leading run of decimal digits and the
rest. -/
def splitDigits (l : List Char) : List Char × List Char :=
  (l.takeWhile Char.isDigit, l.dropWhile Char.isDigit)

/-- Parses an unsigned decimal mantissa `digits[.digits]`, returning its value
and the unconsumed characters. At least one digit must be present. -/
def parseUnsigned (l : List Char) : Option (ℚ × List Char) :=
  let ip := (splitDigits l).1
  let rest := (splitDigits l).2
  match rest with
  | '.' :: rest2 =>
      let fp := (splitDigits rest2).1
      let rest3 := (splitDigits rest2).2
      if ip.isEmpty && fp.isEmpty then none
      else
        some (Rat.divInt (digitsToNat ip * 10 ^ fp.length + digitsToNat fp) (10 ^ fp.length), rest3)
  | _ => if ip.isEmpty then none else some (Rat.divInt (digitsToNat ip) 1, rest)

/-- Parses the signed integer after an `e`/`E`, returning the exponent and the
unconsumed characters. -/
def parseExpPart (l : List Char) : Option (ℤ × List Char) :=
  match l with
  | '+' :: r =>
      let d := (splitDigits r).1
      if d.isEmpty then none else some ((digitsToNat d : ℤ), (splitDigits r).2)
  | '-' :: r =>
      let d := (splitDigits r).1
      if d.isEmpty then none else some (-(digitsToNat d : ℤ), (splitDigits r).2)
  | r =>
      let d := (splitDigits r).1
      if d.isEmpty then none else some ((digitsToNat d : ℤ), (splitDigits r).2)

/-- Scales `m` by `10 ^ e` for a signed exponent `e`. -/
def scaleByPow10 (m : ℚ) (e : ℤ) : ℚ :=
  if 0 ≤ e then Rat.divInt (m.num * 10 ^ e.toNat) (m.den : ℤ)
  else Rat.divInt m.num ((m.den : ℤ) * 10 ^ (-e).toNat)

/-- Embeds JavaScript `Number(s)` for plain decimal literals with an optional
sign, fraction and exponent (the inputs the claims exercise); other strings
(for which `Number` yields `NaN` or uses non-decimal syntax) are out of the
model and return `none`. -/
def parseDecExp (s : String) : Option ℚ :=
  let l := s.toList
  let signAndRest : Bool × List Char :=
    match l with
    | '-' :: r => (true, r)
    | '+' :: r => (false, r)
    | r => (false, r)
  match parseUnsigned signAndRest.2 with
  | none => none
  | some (m, rest) =>
      let sm := if signAndRest.1 then -m else m
      match rest with
      | [] => some sm
      | 'e' :: r =>
          match parseExpPart r with
          | some (e, []) => some (scaleByPow10 sm e)
          | _ => none
      | 'E' :: r =>
          match parseExpPart r with
          | some (e, []) => some (scaleByPow10 sm e)
          | _ => none
      | _ => none

/-- Least `d ≤ 120` with `den ∣ 10 ^ d` (every rational arising from the
decimal literals in the program has such a `d`); `0` as a fallback. -/
def pow10Exponent (den : ℕ) : ℕ :=
  ((List.range 120).find? (fun d => 10 ^ d % den == 0)).getD 0

/-- Splits `n` as `s * 10 ^ z` with `s` not divisible by 10 (fuel-driven so
that it evaluates inside the kernel); returns `(s, z)`. -/
def stripZerosAux : ℕ → ℕ → ℕ × ℕ
  | 0, n => (n, 0)
  | fuel + 1, n =>
      if n ≠ 0 && n % 10 == 0 then
        let p := stripZerosAux fuel (n / 10)
        (p.1, p.2 + 1)
      else (n, 0)

/-- Strips the trailing decimal zeros of `n`, returning the stripped value and
the count of removed zeros. -/
def stripTrailingZeros (n : ℕ) : ℕ × ℕ := stripZerosAux n n

/-- Fixed-notation decimal rendering of a rational whose denominator divides a
power of ten; this is `BigNumber(x).toFixed()` of bignumber.js on such values. -/
def toFixedString (q : ℚ) : String :=
  let sgn := if q < 0 then "-" else ""
  let d := pow10Exponent q.den
  let M := q.num.natAbs * (10 ^ d / q.den)
  if d = 0 then sgn ++ toString M
  else
    let ip := M / 10 ^ d
    let fp := M % 10 ^ d
    let fpStr := toString fp
    sgn ++ toString ip ++ "." ++ String.mk (List.replicate (d - fpStr.length) '0') ++ fpStr

/-- ECMAScript `Number`-to-`String` (ECMA-262 §6.1.6.1.20) for finite-decimal
rationals: shortest digits `s` with `q = ± s·10^(n-k)` (`k` digits in `s`),
rendered in positional notation for `-6 < n ≤ 21` and in exponent notation
otherwise. -/
def jsNumberToString (q : ℚ) : String :=
  if q = 0 then "0"
  else
    let sgn := if q < 0 then "-" else ""
    let d := pow10Exponent q.den
    let M := q.num.natAbs * (10 ^ d / q.den)
    let s := (stripTrailingZeros M).1
    let z := (stripTrailingZeros M).2
    let digits := toString s
    let k := digits.length
    let n : ℤ := (k : ℤ) + (z : ℤ) - (d : ℤ)
    if (k : ℤ) ≤ n && n ≤ 21 then
      sgn ++ digits ++ String.mk (List.replicate (n - (k : ℤ)).toNat '0')
    else if 0 < n && n ≤ 21 then
      sgn ++ digits.take n.toNat ++ "." ++ digits.drop n.toNat
    else if -6 < n && n ≤ 0 then
      sgn ++ "0." ++ String.mk (List.replicate (-n).toNat '0') ++ digits
    else
      let expVal := n - 1
      let expStr := if expVal < 0 then "-" ++ toString (-expVal).toNat else "+" ++ toString expVal.toNat
      if k = 1 then sgn ++ digits ++ "e" ++ expStr
      else sgn ++ digits.take 1 ++ "." ++ digits.drop 1 ++ "e" ++ expStr

/- ===================== NFT amount codec (spec-modelled) ===================== -/

/-- Modelled from the spec: the reserved-range boundary distinguishing
NFT-encoded amounts from ordinary currency amounts — a convention-defined
constant (spec §9): wire values at or below `10 ^ (-70)` are in the reserved
NFT range. -/
def nftReservedMax : ℚ := Rat.divInt 1 (10 ^ 70)

/-- Modelled from the spec: `NFTValueToXRPL` lives in `@common/utils/amount`,
which is not part of the excerpt. Per §4.2 it is a deterministic, reversible
transform mapping a small-integer NFT ordinal into a wire value inside the
reserved range: ordinal `n` becomes the wire value `n · 10 ^ (-81)`. -/
def NFTValueToXRPL (n : ℕ) : ℚ := Rat.divInt (n : ℤ) (10 ^ 81)

/-- Modelled from the spec: `XRPLValueToNFT` lives in `@common/utils/amount`,
which is not part of the excerpt. Per §4.2 it detects whether a wire value lies
in the reserved NFT range and, if so, decodes it back to the NFT ordinal;
otherwise (JavaScript `false`) it returns `none`. -/
def XRPLValueToNFT (v : ℚ) : Option ℕ :=
  if 0 < v ∧ v ≤ nftReservedMax ∧ (qMul v (Rat.divInt (10 ^ 81) 1)).den = 1 then
    some (qMul v (Rat.divInt (10 ^ 81) 1)).num.toNat
  else none

/- ===================== AmountText display derivation ===================== -/

/-- The two truncation flags of `AmountText` (AmountText.tsx, line 34). -/
inductive TruncFlag where
  | LOW : TruncFlag
  | HIGH : TruncFlag
deriving DecidableEq

/-- The component state of `AmountText` (AmountText.tsx, lines 31-36):
`originalValue` starts as `undefined` (`none`). -/
structure AState where
  originalValue : Option String
  value : String
  truncated : Option TruncFlag
  showOriginalValue : Bool
deriving DecidableEq

/-- The initial state set by the constructor (AmountText.tsx, lines 43-48). -/
def initialAState : AState :=
  { originalValue := none, value := "", truncated := none, showOriginalValue := false }

/-- The object returned by a non-null `getDerivedStateFromProps`: the
`truncated` key is absent (`none`) in the zero and NFT branches and present
(`some`, possibly holding `undefined`) in the final branch — React merges the
returned object into the state, so an absent key leaves the old value. -/
structure DerivedUpdate where
  originalValue : String
  value : String
  truncated : Option (Option TruncFlag)
deriving DecidableEq

/-- The `value` prop of `AmountText`: a JavaScript number or string
(AmountText.tsx, line 22). -/
inductive JSAmountProp where
  | num (q : ℚ) : JSAmountProp
  | str (s : String) : JSAmountProp

/-- JavaScript `String(value)` applied to the raw prop (AmountText.tsx,
line 69). -/
def propToString : JSAmountProp → String
  | JSAmountProp.num q => jsNumberToString q
  | JSAmountProp.str s => s

/-- JavaScript `Number(value)` applied to a string prop (AmountText.tsx,
lines 73-75); a number prop passes through. Strings outside the plain decimal
grammar (where `Number` yields `NaN`) are outside the model. -/
def propToNumber : JSAmountProp → Option ℚ
  | JSAmountProp.num q => some q
  | JSAmountProp.str s => parseDecExp s

/-- `PRECISION` (AmountText.tsx, line 95). -/
def PRECISION : ℕ := 8

/-- `MAX_VALUE` (AmountText.tsx, line 96). -/
def MAX_VALUE : ℚ := Rat.divInt 99999 1

/-- The low-side display floor, `Number('0.' + '0'.repeat(PRECISION) + '9')`
(AmountText.tsx, line 102): `0.000000009`. -/
def lowThreshold : ℚ := Rat.divInt 9 (10 ^ (PRECISION + 1))

/-- JavaScript `Math.trunc` on our rationals: rounds toward zero. -/
def jsTrunc (q : ℚ) : ℚ := Rat.divInt (q.num.tdiv (q.den : ℤ)) 1

/-- `getDerivedStateFromProps` (AmountText.tsx, lines 66-126) after the
`Number` conversion: `raw` is `String(value)` of the raw prop (used only by
the memo guard on line 69), `value` the converted number. The NFT decoder
(`nft`, the imported `XRPLValueToNFT`) and the locale formatter (`fmt`, the
external `Localize.formatNumber`) are parameters. Returns `none` for the
`return null` paths. -/
def getDerivedCore (nft : ℚ → Option ℕ) (fmt : ℚ → String)
    (raw : String) (value : ℚ) (prevState : AState) : Option DerivedUpdate :=
  if prevState.originalValue = some raw then none
  else if value = 0 then
    some { originalValue := jsNumberToString value, value := jsNumberToString value,
           truncated := none }
  else
    match nft value with
    | some n =>
        some { originalValue := jsNumberToString value, value := toString n, truncated := none }
    | none =>
        let pair : String × Option TruncFlag :=
          if 0 < value ∧ value < lowThreshold then ("0…", some TruncFlag.LOW)
          else if MAX_VALUE < value then (fmt (jsTrunc value), some TruncFlag.HIGH)
          else (fmt value, none)
        if pair.1 ≠ prevState.value then
          some { originalValue := jsNumberToString value, value := pair.1,
                 truncated := some pair.2 }
        else none

/-- React's shallow merge of a `getDerivedStateFromProps` result into the
previous state: `null` leaves the state unchanged; an absent `truncated` key
keeps the previous flag. -/
def applyDerived (prevState : AState) : Option DerivedUpdate → AState
  | none => prevState
  | some u =>
      { originalValue := some u.originalValue, value := u.value,
        truncated := u.truncated.getD prevState.truncated,
        showOriginalValue := prevState.showOriginalValue }

/-- One derivation step on a numeric prop value. -/
def deriveStateNum (nft : ℚ → Option ℕ) (fmt : ℚ → String) (value : ℚ)
    (prevState : AState) : AState :=
  applyDerived prevState (getDerivedCore nft fmt (jsNumberToString value) value prevState)

/-- One derivation step on an arbitrary prop value; `none` when the `Number`
conversion falls outside the model. -/
def deriveState (nft : ℚ → Option ℕ) (fmt : ℚ → String) (p : JSAmountProp)
    (prevState : AState) : Option AState :=
  (propToNumber p).map (fun q => applyDerived prevState (getDerivedCore nft fmt (propToString p) q prevState))

/-- Search for a match of the exponent regex
`[-+]?[0-9]*\.?[0-9]+([eE][-+]?[0-9]+)` (AmountText.tsx, line 141): an
unanchored match exists exactly when a digit is followed by `e`/`E`, an
optional sign and a digit. -/
def expMatch : List Char → Bool
  | [] => false
  | c :: rest =>
      (match rest with
       | e :: rest2 =>
           c.isDigit && (e == 'e' || e == 'E') &&
           (match rest2 with
            | d :: rest3 =>
                d.isDigit || ((d == '+' || d == '-') &&
                  (match rest3 with
                   | d2 :: _ => d2.isDigit
                   | [] => false))
            | [] => false)
       | [] => false)
      || expMatch rest

/-- `alertOriginalValue` (AmountText.tsx, lines 136-149), returning the
`amount` string placed into the alert: exponent-form values are re-rendered
through `BigNumber(originalValue).toFixed()`. `String(undefined)` is
`"undefined"`. -/
def alertOriginalValue (originalValue : Option String) : String :=
  let amount := originalValue.getD "undefined"
  if expMatch amount.toList then
    match parseDecExp amount with
    | some q => toFixedString q
    | none => amount
  else amount

/- ===================== Send screen: payment build ===================== -/

/-- A trust-line currency as used by the Send screen: currency code plus
issuer address (`currency.currency` / `currency.issuer` in SendView.tsx). -/
structure TrustLineCurrency where
  currency : String
  issuer : String
deriving DecidableEq

/-- The transaction flag set by the Send screen,
`txFlags.Payment.PartialPayment` (SendView.tsx, line 194). -/
inductive TxFlag where
  | tfPartialPayment : TxFlag
deriving DecidableEq

/-- A destination as assigned by the Send screen (SendView.tsx,
lines 205-208). -/
structure DestinationField where
  address : String
  tag : Option ℕ
deriving DecidableEq

/-- The `Amount` field of a Payment as the Send screen assigns it: the XRP
branch stores the amount string, the IOU branch a currency/issuer/value
object (SendView.tsx, lines 182 and 197-201). -/
inductive AmountFieldValue where
  | native (amount : String) : AmountFieldValue
  | issued (currency issuer value : String) : AmountFieldValue
deriving DecidableEq

/-- The fields of a `new Payment()` that the Send screen assigns; all start
unset. -/
structure PaymentTx where
  TransferRate : Option ℚ := none
  Flags : Option (List TxFlag) := none
  Amount : Option AmountFieldValue := none
  Destination : Option DestinationField := none
  Account : Option String := none
deriving DecidableEq

/-- JavaScript truthiness of the awaited
`LedgerService.getAccountTransferRate(issuer)` result (SendView.tsx,
line 188): `undefined` and `0` are falsy. -/
def truthyRate : Option ℚ → Bool
  | none => false
  | some r => decide (r ≠ 0)

/-- Modelled from the spec: the string-level `NFTValueToXRPL` of
`@common/utils/amount` (not part of the excerpt) renders the encoded wire
value of an integer ordinal string as a decimal string; a non-integer input
makes it throw (`none`). -/
def NFTValueToXRPLString (s : String) : Option String :=
  match parseDecExp s with
  | some q => if q.den = 1 ∧ 0 ≤ q.num then some (toFixedString (NFTValueToXRPL q.num.toNat)) else none
  | none => none

/-- The field assignments the Send screen performs on a fresh `Payment` for an
issued currency (SendView.tsx, lines 184-213): `TransferRate` when the awaited
rate is truthy, the partial-payment flag when the rate is truthy or the sender
is the issuer, then `Amount`, `Destination` and `Account`. `none` models the
throw of the NFT amount conversion. -/
def buildIOUPayment (transferRate : Option ℚ) (currency : TrustLineCurrency)
    (source : String) (amount : String) (sendingNFT : Bool)
    (destination : DestinationField) : Option PaymentTx :=
  match (if sendingNFT then NFTValueToXRPLString amount else some amount) with
  | none => none
  | some value =>
      some
        { TransferRate := if truthyRate transferRate then transferRate else none
          Flags :=
            if truthyRate transferRate || currency.issuer == source then
              some [TxFlag.tfPartialPayment]
            else none
          Amount := some (AmountFieldValue.issued currency.currency currency.issuer value)
          Destination := some destination
          Account := some source }

/- ===================== Send screen: lifecycle flow ===================== -/

/-- The steps of the Send screen (`Steps` in SendView's `./types`, as used in
SendView.tsx). -/
inductive SendStep where
  | Details | Recipient | Summary | Submitting | Verifying | Result
deriving DecidableEq

/-- Observable events of the send / submit flow, in program order: the
lifecycle calls on the payment, step changes, haptic feedback and the error
alert. Each call event stands for the completed, awaited call. -/
inductive Ev where
  | validateCall : Ev
  | signCall : Ev
  | submitCall : Ev
  | verifyCall : Ev
  | stepChange (s : SendStep) : Ev
  | haptic (success : Bool) : Ev
  | alertShown : Ev
deriving DecidableEq

/-- The `submit` handler (SendView.tsx, lines 137-170): step `Submitting`,
then `payment.submit()`; on `success` step `Verifying`, `payment.verify()`,
optional haptic with the verify outcome, step `Result`; otherwise optional
error haptic and step `Result` directly. -/
def submitFlow (hapticEnabled submitSuccess verifySuccess : Bool) : List Ev :=
  [Ev.stepChange SendStep.Submitting, Ev.submitCall] ++
    (if submitSuccess then
      [Ev.stepChange SendStep.Verifying, Ev.verifyCall] ++
        (if hapticEnabled then [Ev.haptic verifySuccess] else []) ++
        [Ev.stepChange SendStep.Result]
    else
      (if hapticEnabled then [Ev.haptic false] else []) ++ [Ev.stepChange SendStep.Result])

/-- The `send` handler (SendView.tsx, lines 172-240): `await payment.validate`
(throw caught by the alert), then `await payment.sign(...).then(this.submit)`
(a signing throw likewise caught), the resolved sign continuing into
`submitFlow`. -/
def sendFlow (validateOk signOk hapticEnabled submitSuccess verifySuccess : Bool) : List Ev :=
  [Ev.validateCall] ++
    (if validateOk then
      [Ev.signCall] ++
        (if signOk then submitFlow hapticEnabled submitSuccess verifySuccess
         else [Ev.alertShown])
    else [Ev.alertShown])

/-- The step a trace leaves the screen in: the last `stepChange` event. -/
def lastStep (tr : List Ev) : Option SendStep :=
  (tr.filterMap (fun e => match e with | Ev.stepChange s => some s | _ => none)).getLast?

/- ===================== Claim theorems ===================== -/

set_option maxRecDepth 8000

/-- C1 (code bug): the claim requires `Blob.set` to reject any defined value
that is not an even-length hexadecimal string with a `TypeValidationError`.
The setter in the source only rejects non-strings (the hex check is a TODO
comment): evaluated at the non-hex string `"zz"`, it returns normally and
stores `"zz"` in the slot. -/
theorem blob_setter_stores_nonhex_string :
    specHexConstraint "zz" = false ∧
      Blob.setter none (JSValue.str "zz") = Except.ok (some "zz") :=
  ⟨rfl, rfl⟩

/-- C9: setting `undefined` through the Blob field descriptor always succeeds,
its sole effect is clearing the storage slot, and a subsequent get returns
`undefined`. -/
theorem blob_setter_undefined_clears (slot : Option String) :
    Blob.setter slot JSValue.undef = Except.ok none ∧ Blob.getter none = none :=
  ⟨rfl, rfl⟩

/-- C2: for every NFT ordinal in the supported range (here `1 ≤ n ≤ 10^11`,
the ordinals whose encoding stays inside the reserved wire range), decoding
the wire value produced by NFT-encoding returns the ordinal itself. -/
theorem nft_roundtrip (n : ℕ) (h0 : 0 < n) (h1 : n ≤ 10 ^ 11) :
    XRPLValueToNFT (NFTValueToXRPL n) = some n := by
  have hpow : ((10 : ℚ) ^ 81) ≠ 0 := by positivity
  have hv : NFTValueToXRPL n = (n : ℚ) / 10 ^ 81 := by
    unfold NFTValueToXRPL
    rw [Rat.divInt_eq_div]
    push_cast
    ring
  have hbig : Rat.divInt ((10 : ℤ) ^ 81) 1 = (10 : ℚ) ^ 81 := by
    rw [Rat.divInt_eq_div]
    push_cast
    ring
  have hw : qMul (NFTValueToXRPL n) (Rat.divInt ((10 : ℤ) ^ 81) 1) = (n : ℚ) := by
    rw [qMul_eq, hv, hbig, div_mul_cancel₀ _ hpow]
  have hnq : (0 : ℚ) < (n : ℚ) := by exact_mod_cast h0
  have hres : nftReservedMax = 1 / (10 : ℚ) ^ 70 := by
    unfold nftReservedMax
    rw [Rat.divInt_eq_div]
    push_cast
    ring
  unfold XRPLValueToNFT
  rw [hw, if_pos]
  · simp
  · refine ⟨by rw [hv]; positivity, ?_, by simp⟩
    rw [hv, hres, div_le_div_iff₀ (by positivity) (by positivity)]
    have hn11 : (n : ℚ) ≤ (10 : ℚ) ^ 11 := by exact_mod_cast h1
    calc (n : ℚ) * 10 ^ 70 ≤ (10 : ℚ) ^ 11 * 10 ^ 70 :=
          mul_le_mul_of_nonneg_right hn11 (by positivity)
      _ = 1 * (10 : ℚ) ^ 81 := by ring

/-- Witness for `nft_roundtrip` at the ordinal 7. -/
theorem nft_roundtrip_witness :
    0 < 7 ∧ 7 ≤ 10 ^ 11 ∧ XRPLValueToNFT (NFTValueToXRPL 7) = some 7 :=
  ⟨by decide, by decide, nft_roundtrip 7 (by decide) (by decide)⟩

/-- C4: when `payment.submit()` reports `success = false`, the flow emits
exactly a step change to `Submitting`, the submit call, the optional error
haptic and a final step change to `Result`: `verify()` is never invoked and
the screen ends on the terminal result step. -/
theorem submit_failure_no_verify (hapticEnabled verifySuccess : Bool) :
    submitFlow hapticEnabled false verifySuccess =
        [Ev.stepChange SendStep.Submitting, Ev.submitCall] ++
          (if hapticEnabled then [Ev.haptic false] else []) ++
          [Ev.stepChange SendStep.Result] ∧
      (submitFlow hapticEnabled false verifySuccess).contains Ev.verifyCall = false ∧
      lastStep (submitFlow hapticEnabled false verifySuccess) = some SendStep.Result := by
  revert hapticEnabled verifySuccess
  decide

/-- C8: in every run of the send flow, the validate call precedes the sign
call, the sign call precedes the submit call, and the verify call happens only
after the submit call and only when submit acknowledged success. -/
theorem lifecycle_ordering (validateOk signOk hapticEnabled submitSuccess verifySuccess : Bool) :
    (Ev.signCall ∈ sendFlow validateOk signOk hapticEnabled submitSuccess verifySuccess →
      Ev.validateCall ∈ sendFlow validateOk signOk hapticEnabled submitSuccess verifySuccess ∧
        (sendFlow validateOk signOk hapticEnabled submitSuccess verifySuccess).indexOf
            Ev.validateCall <
          (sendFlow validateOk signOk hapticEnabled submitSuccess verifySuccess).indexOf
            Ev.signCall) ∧
    (Ev.submitCall ∈ sendFlow validateOk signOk hapticEnabled submitSuccess verifySuccess →
      Ev.signCall ∈ sendFlow validateOk signOk hapticEnabled submitSuccess verifySuccess ∧
        (sendFlow validateOk signOk hapticEnabled submitSuccess verifySuccess).indexOf
            Ev.signCall <
          (sendFlow validateOk signOk hapticEnabled submitSuccess verifySuccess).indexOf
            Ev.submitCall) ∧
    (Ev.verifyCall ∈ sendFlow validateOk signOk hapticEnabled submitSuccess verifySuccess →
      Ev.submitCall ∈ sendFlow validateOk signOk hapticEnabled submitSuccess verifySuccess ∧
        (sendFlow validateOk signOk hapticEnabled submitSuccess verifySuccess).indexOf
            Ev.submitCall <
          (sendFlow validateOk signOk hapticEnabled submitSuccess verifySuccess).indexOf
            Ev.verifyCall ∧
        submitSuccess = true) := by
  revert validateOk signOk hapticEnabled submitSuccess verifySuccess
  decide

/-- Witness for `lifecycle_ordering` on the all-success run. -/
theorem lifecycle_ordering_witness :
    Ev.validateCall ∈ sendFlow true true true true true ∧
      (sendFlow true true true true true).indexOf Ev.validateCall <
        (sendFlow true true true true true).indexOf Ev.signCall :=
  (lifecycle_ordering true true true true true).1 (by decide)

/-- C3: an issued-currency Payment built by the send flow carries the
`PartialPayment` flag exactly when the issuer's configured transfer rate is
truthy (non-zero) or the source account is the currency issuer; otherwise the
`Flags` field stays unset. -/
theorem iou_partial_payment_flag (transferRate : Option ℚ) (currency : TrustLineCurrency)
    (source amount : String) (sendingNFT : Bool) (destination : DestinationField)
    (p : PaymentTx)
    (hbuild : buildIOUPayment transferRate currency source amount sendingNFT destination = some p) :
    TxFlag.tfPartialPayment ∈ p.Flags.getD [] ↔
      (truthyRate transferRate = true ∨ currency.issuer = source) := by
  unfold buildIOUPayment at hbuild
  rcases h : (if sendingNFT then NFTValueToXRPLString amount else some amount) with _ | v
  · rw [h] at hbuild
    cases hbuild
  · rw [h] at hbuild
    injection hbuild with hp
    subst hp
    cases hc : (truthyRate transferRate || (currency.issuer == source)) with
    | true =>
        have hc' : truthyRate transferRate = true ∨ currency.issuer = source := by
          simpa using hc
        simp [hc, hc']
    | false =>
        have hc' : ¬(truthyRate transferRate = true ∨ currency.issuer = source) := by
          simpa using hc
        simp [hc, hc']

/-- Witness for `iou_partial_payment_flag`: issuer `rIssuer` with transfer
rate `1.002`, source `rSource`. -/
theorem iou_partial_payment_flag_witness :
    TxFlag.tfPartialPayment ∈
        (PaymentTx.Flags
            { TransferRate := some (Rat.divInt 1002 1000)
              Flags := some [TxFlag.tfPartialPayment]
              Amount := some (AmountFieldValue.issued "USD" "rIssuer" "12.5")
              Destination := some ⟨"rDest", none⟩
              Account := some "rSource" }).getD [] ↔
      (truthyRate (some (Rat.divInt 1002 1000)) = true ∨ "rIssuer" = "rSource") :=
  iou_partial_payment_flag (some (Rat.divInt 1002 1000)) ⟨"USD", "rIssuer"⟩ "rSource" "12.5"
    false ⟨"rDest", none⟩ _ (by decide)

/-- `MAX_VALUE` as an ordinary rational numeral. -/
theorem MAX_VALUE_eq : MAX_VALUE = (99999 : ℚ) := by
  unfold MAX_VALUE
  rw [Rat.divInt_eq_div]
  norm_num

/-- `lowThreshold` as an ordinary rational numeral. -/
theorem lowThreshold_eq : lowThreshold = 9 / 10 ^ 9 := by
  unfold lowThreshold PRECISION
  rw [Rat.divInt_eq_div]
  norm_num

/-- The low-truncation branch of the derivation: guard passed, value positive
and below the floor, not NFT-recognized. -/
theorem getDerivedCore_low (nft : ℚ → Option ℕ) (fmt : ℚ → String) (raw : String) (v : ℚ)
    (prev : AState) (hg : prev.originalValue ≠ some raw)
    (h0 : 0 < v) (h1 : v < lowThreshold) (hn : nft v = none) (hv : prev.value ≠ "0…") :
    getDerivedCore nft fmt raw v prev =
      some { originalValue := jsNumberToString v, value := "0…",
             truncated := some (some TruncFlag.LOW) } := by
  unfold getDerivedCore
  rw [if_neg hg, if_neg h0.ne', hn]
  have hpair : (if 0 < v ∧ v < lowThreshold then ("0…", some TruncFlag.LOW)
      else if MAX_VALUE < v then (fmt (jsTrunc v), some TruncFlag.HIGH) else (fmt v, none)) =
      ("0…", some TruncFlag.LOW) := if_pos ⟨h0, h1⟩
  simp only [hpair]
  exact if_pos (Ne.symm hv)

/-- The high-truncation branch of the derivation: guard passed, value above
`MAX_VALUE`, not NFT-recognized. -/
theorem getDerivedCore_high (nft : ℚ → Option ℕ) (fmt : ℚ → String) (raw : String) (v : ℚ)
    (prev : AState) (hg : prev.originalValue ≠ some raw)
    (h1 : MAX_VALUE < v) (hn : nft v = none) (hv : prev.value ≠ fmt (jsTrunc v)) :
    getDerivedCore nft fmt raw v prev =
      some { originalValue := jsNumberToString v, value := fmt (jsTrunc v),
             truncated := some (some TruncFlag.HIGH) } := by
  have hpos : (0 : ℚ) < v := lt_trans (by rw [MAX_VALUE_eq]; norm_num) h1
  have hnl : ¬(0 < v ∧ v < lowThreshold) := by
    rintro ⟨-, hlt⟩
    have hlm : lowThreshold < v := lt_trans (by rw [lowThreshold_eq, MAX_VALUE_eq]; norm_num) h1
    exact absurd hlt (not_lt.mpr hlm.le)
  unfold getDerivedCore
  rw [if_neg hg, if_neg hpos.ne', hn]
  have hpair : (if 0 < v ∧ v < lowThreshold then ("0…", some TruncFlag.LOW)
      else if MAX_VALUE < v then (fmt (jsTrunc v), some TruncFlag.HIGH) else (fmt v, none)) =
      (fmt (jsTrunc v), some TruncFlag.HIGH) := by
    rw [if_neg hnl, if_pos h1]
  simp only [hpair]
  exact if_pos (Ne.symm hv)

/-- The NFT branch of the derivation: guard passed, value nonzero and
NFT-recognized; the returned update carries no `truncated` key. -/
theorem getDerivedCore_nft (nft : ℚ → Option ℕ) (fmt : ℚ → String) (raw : String) (v : ℚ)
    (prev : AState) (n : ℕ) (hg : prev.originalValue ≠ some raw)
    (h0 : v ≠ 0) (hn : nft v = some n) :
    getDerivedCore nft fmt raw v prev =
      some { originalValue := jsNumberToString v, value := toString n, truncated := none } := by
  unfold getDerivedCore
  rw [if_neg hg, if_neg h0, hn]

/-- The zero branch of the derivation: guard passed; the returned update
carries no `truncated` key. -/
theorem getDerivedCore_zero (nft : ℚ → Option ℕ) (fmt : ℚ → String) (raw : String)
    (prev : AState) (hg : prev.originalValue ≠ some raw) :
    getDerivedCore nft fmt raw 0 prev =
      some { originalValue := jsNumberToString 0, value := jsNumberToString 0,
             truncated := none } := by
  unfold getDerivedCore
  rw [if_neg hg, if_pos rfl]

/-- C5 counterexample: the NFT-encoded value `10^-81` is positive and strictly
below the `0.000000009` floor, yet the derivation displays its NFT decode
(`"1"`), not `"0…"`, and sets no LOW flag — the claim's "every positive value
strictly below the floor" fails on NFT-encoded values, which the code
dispatches before the threshold checks. -/
theorem low_truncation_counterexample :
    (0 : ℚ) < Rat.divInt 1 (10 ^ 81) ∧ Rat.divInt 1 (10 ^ 81) < lowThreshold ∧
      ¬((deriveStateNum XRPLValueToNFT toFixedString (Rat.divInt 1 (10 ^ 81))
            initialAState).value = "0…" ∧
        (deriveStateNum XRPLValueToNFT toFixedString (Rat.divInt 1 (10 ^ 81))
            initialAState).truncated = some TruncFlag.LOW) := by
  decide

/-- C5 (amended): for every positive value strictly below the `0.000000009`
floor that the NFT decoder does not recognize, the derivation from the initial
state displays `"0…"` with the LOW flag; for the input string `"0.000000001"`
the state stores `String(1e-9) = "1e-9"` and requesting the original value
re-renders it as exactly `"0.000000001"`. -/
theorem low_truncation_amended (fmt : ℚ → String) (v : ℚ)
    (h0 : 0 < v) (h1 : v < lowThreshold) (hn : XRPLValueToNFT v = none) :
    ((deriveStateNum XRPLValueToNFT fmt v initialAState).value = "0…" ∧
      (deriveStateNum XRPLValueToNFT fmt v initialAState).truncated = some TruncFlag.LOW) ∧
      deriveState XRPLValueToNFT fmt (JSAmountProp.str "0.000000001") initialAState =
        some { originalValue := some "1e-9", value := "0…",
               truncated := some TruncFlag.LOW, showOriginalValue := false } ∧
      alertOriginalValue (some "1e-9") = "0.000000001" := by
  refine ⟨?_, ?_, by decide⟩
  · unfold deriveStateNum
    rw [getDerivedCore_low XRPLValueToNFT fmt (jsNumberToString v) v initialAState
        (by simp [initialAState]) h0 h1 hn (by simp [initialAState])]
    exact ⟨by simp [applyDerived], by simp [applyDerived]⟩
  · have hq : propToNumber (JSAmountProp.str "0.000000001") = some (Rat.divInt 1 (10 ^ 9)) := by
      decide
    have hraw : propToString (JSAmountProp.str "0.000000001") = "0.000000001" := rfl
    unfold deriveState
    rw [hq, hraw]
    simp only [Option.map_some']
    rw [getDerivedCore_low XRPLValueToNFT fmt "0.000000001" (Rat.divInt 1 (10 ^ 9)) initialAState
      (by simp [initialAState]) (by decide) (by decide) (by decide) (by simp [initialAState])]
    simp [applyDerived]
    decide

/-- Witness for `low_truncation_amended` at `v = 10^-9`. -/
theorem low_truncation_amended_witness :
    ((deriveStateNum XRPLValueToNFT toFixedString (Rat.divInt 1 (10 ^ 9)) initialAState).value
        = "0…" ∧
      (deriveStateNum XRPLValueToNFT toFixedString (Rat.divInt 1 (10 ^ 9))
          initialAState).truncated = some TruncFlag.LOW) ∧
      deriveState XRPLValueToNFT toFixedString (JSAmountProp.str "0.000000001") initialAState =
        some { originalValue := some "1e-9", value := "0…",
               truncated := some TruncFlag.LOW, showOriginalValue := false } ∧
      alertOriginalValue (some "1e-9") = "0.000000001" :=
  low_truncation_amended toFixedString (Rat.divInt 1 (10 ^ 9)) (by decide) (by decide) (by decide)

/-- C6: for every value strictly above `MAX_VALUE = 99999` (necessarily
nonzero, and with the NFT decoder not recognizing it), the derivation from the
initial state displays the locale-formatted `Math.trunc` of the value and sets
the HIGH flag. -/
theorem high_truncation (fmt : ℚ → String) (v : ℚ)
    (h1 : MAX_VALUE < v) (_hz : v ≠ 0) (hn : XRPLValueToNFT v = none)
    (hfmt : fmt (jsTrunc v) ≠ "") :
    (deriveStateNum XRPLValueToNFT fmt v initialAState).value = fmt (jsTrunc v) ∧
      (deriveStateNum XRPLValueToNFT fmt v initialAState).truncated = some TruncFlag.HIGH := by
  unfold deriveStateNum
  rw [getDerivedCore_high XRPLValueToNFT fmt (jsNumberToString v) v initialAState
      (by simp [initialAState]) h1 hn (fun h => hfmt h.symm)]
  exact ⟨by simp [applyDerived], by simp [applyDerived]⟩

/-- Witness for `high_truncation` at `v = 150000`. -/
theorem high_truncation_witness :
    (deriveStateNum XRPLValueToNFT toFixedString (Rat.divInt 150000 1) initialAState).value =
        toFixedString (jsTrunc (Rat.divInt 150000 1)) ∧
      (deriveStateNum XRPLValueToNFT toFixedString (Rat.divInt 150000 1) initialAState).truncated =
        some TruncFlag.HIGH :=
  high_truncation toFixedString (Rat.divInt 150000 1) (by decide) (by decide) (by decide)
    (by decide)

/-- C7 counterexample: after deriving the state for `150000` (HIGH flag) and
then for the input value `0`, the display is the literal `"0"` but the
truncated flag is still HIGH — the zero branch's partial update has no
`truncated` key, so the previous flag survives the React state merge. -/
theorem zero_keeps_flag_counterexample :
    (deriveStateNum XRPLValueToNFT toFixedString 0
        (deriveStateNum XRPLValueToNFT toFixedString (Rat.divInt 150000 1) initialAState)).value
        = "0" ∧
      (deriveStateNum XRPLValueToNFT toFixedString 0
        (deriveStateNum XRPLValueToNFT toFixedString (Rat.divInt 150000 1) initialAState)).truncated
        = some TruncFlag.HIGH ∧
      ¬((deriveStateNum XRPLValueToNFT toFixedString 0
        (deriveStateNum XRPLValueToNFT toFixedString (Rat.divInt 150000 1) initialAState)).truncated
        = none) := by
  decide

/-- C7 (amended): for the input value zero (when the memo guard passes) the
derivation never consults the NFT decoder, displays the literal `"0"`, and
does not newly set the truncated flag — the previous flag is left in place by
the merge, because the zero branch's update omits the `truncated` key. -/
theorem zero_display_amended (nft nft' : ℚ → Option ℕ) (fmt fmt' : ℚ → String) (prev : AState)
    (hg : prev.originalValue ≠ some "0") :
    deriveStateNum nft fmt 0 prev = { prev with originalValue := some "0", value := "0" } ∧
      getDerivedCore nft fmt "0" 0 prev = getDerivedCore nft' fmt' "0" 0 prev := by
  have hz : jsNumberToString 0 = "0" := by decide
  constructor
  · unfold deriveStateNum
    rw [hz, getDerivedCore_zero nft fmt "0" prev hg, hz]
    rfl
  · rw [getDerivedCore_zero nft fmt "0" prev hg, getDerivedCore_zero nft' fmt' "0" prev hg]

/-- Witness for `zero_display_amended` from the initial state, with two
distinct decoders and formatters. -/
theorem zero_display_amended_witness :
    deriveStateNum XRPLValueToNFT toFixedString 0 initialAState =
        { initialAState with originalValue := some "0", value := "0" } ∧
      getDerivedCore XRPLValueToNFT toFixedString "0" 0 initialAState =
        getDerivedCore (fun _ => none) (fun _ => "x") "0" 0 initialAState :=
  zero_display_amended XRPLValueToNFT (fun _ => none) toFixedString (fun _ => "x") initialAState
    (by decide)

/-- C10 counterexample: `10^-81` is recognized as the NFT ordinal 1 and
displayed as its decode `"1"`, but after a previous `150000` derivation the
truncated flag is still HIGH — the NFT branch's update omits the `truncated`
key, so "the truncated flag is never set" fails for the merged state. -/
theorem nft_keeps_flag_counterexample :
    XRPLValueToNFT (Rat.divInt 1 (10 ^ 81)) = some 1 ∧
      (deriveStateNum XRPLValueToNFT toFixedString (Rat.divInt 1 (10 ^ 81))
          (deriveStateNum XRPLValueToNFT toFixedString (Rat.divInt 150000 1) initialAState)).value
        = "1" ∧
      (deriveStateNum XRPLValueToNFT toFixedString (Rat.divInt 1 (10 ^ 81))
          (deriveStateNum XRPLValueToNFT toFixedString (Rat.divInt 150000 1)
            initialAState)).truncated = some TruncFlag.HIGH ∧
      ¬((deriveStateNum XRPLValueToNFT toFixedString (Rat.divInt 1 (10 ^ 81))
          (deriveStateNum XRPLValueToNFT toFixedString (Rat.divInt 150000 1)
            initialAState)).truncated = none) := by
  decide

/-- C10 (amended): for every nonzero value the NFT decoder recognizes (and a
passing memo guard), the derived display value is exactly the decode, the
derivation is independent of the locale formatter (no threshold is applied),
and the truncated flag is not newly set — it keeps its previous value through
the merge, whatever the magnitude. -/
theorem nft_display_amended (fmt fmt' : ℚ → String) (v : ℚ) (n : ℕ) (prev : AState)
    (hn : XRPLValueToNFT v = some n) (h0 : v ≠ 0)
    (hg : prev.originalValue ≠ some (jsNumberToString v)) :
    deriveStateNum XRPLValueToNFT fmt v prev =
        { prev with originalValue := some (jsNumberToString v), value := toString n } ∧
      deriveStateNum XRPLValueToNFT fmt v prev = deriveStateNum XRPLValueToNFT fmt' v prev := by
  unfold deriveStateNum
  rw [getDerivedCore_nft XRPLValueToNFT fmt (jsNumberToString v) v prev n hg h0 hn,
    getDerivedCore_nft XRPLValueToNFT fmt' (jsNumberToString v) v prev n hg h0 hn]
  exact ⟨by simp [applyDerived], rfl⟩

/-- Witness for `nft_display_amended` at `v = 10^-81`, ordinal 1, from the
initial state. -/
theorem nft_display_amended_witness :
    deriveStateNum XRPLValueToNFT toFixedString (Rat.divInt 1 (10 ^ 81)) initialAState =
        { initialAState with
          originalValue := some (jsNumberToString (Rat.divInt 1 (10 ^ 81))),
          value := toString 1 } ∧
      deriveStateNum XRPLValueToNFT toFixedString (Rat.divInt 1 (10 ^ 81)) initialAState =
        deriveStateNum XRPLValueToNFT (fun _ => "x") (Rat.divInt 1 (10 ^ 81)) initialAState :=
  nft_display_amended toFixedString (fun _ => "x") (Rat.divInt 1 (10 ^ 81)) 1 initialAState
    (by decide) (by decide) (by decide)
